import Mathlib

/-!
Verification of the thread-pool core of the xoltar toolkit (threadpool.py).

The development is a shallow embedding of the Python source.  Python values
are modelled by `PyVal`; a callable submitted to the pool takes no arguments
and either returns a value, raises a `StandardError` (the "application level"
error family that `Worker.run` catches), or raises a fatal, uncaught
exception.  Blocking operations are modelled by `Option`-valued results:
`none` means the calling thread blocks and the operation never returns in
the modelled scenario.
-/

/-- A Python value: just enough structure to distinguish concrete inputs. -/
inductive PyVal where
  | none
  | int (n : Int)
  | str (s : String)
deriving DecidableEq, Repr

/-- Outcome of calling a Python callable with no arguments: a normal return,
a raised `StandardError` (caught by the worker), or a raised non-standard,
fatal exception (not caught by the worker). -/
inductive CallResult where
  | ret (v : PyVal)
  | raiseStd (e : PyVal)
  | raiseFatal (e : PyVal)
deriving DecidableEq, Repr

/-- A job callable: invoked by the worker as `job[0]()`, with no arguments. -/
abbrev Callable : Type := Unit → CallResult

/-- `ReturnValue` (threadpool.py lines 112-141): a blocking future.
`value = none` models the absence of the `_value` key in `self.__dict__`
(not yet resolved); `asException` models `_asException`.  The condition
variable used for blocking is not represented: blocking is modelled at the
use sites (`eval` of an unresolved future returns `none`). -/
structure ReturnValue where
  value : Option PyVal
  asException : Bool
deriving DecidableEq, Repr

namespace ReturnValue

/-- A freshly constructed `ReturnValue()`: `__init__` stores nothing, so no
`_value` key exists yet. -/
def fresh : ReturnValue := { value := none, asException := false }

/-- `ReturnValue.load` (lines 132-138): unconditionally writes
`_asException` and `_value` into `__dict__`, then notifies waiters.  Note
that the source performs no already-resolved check: a second call simply
overwrites both fields. -/
def load (rv : ReturnValue) (val : PyVal) (asException : Bool) : ReturnValue :=
  { rv with asException := asException, value := some val }

/-- `ReturnValue.eval` (lines 121-130): if `_value` is absent the caller
waits on the condition variable (modelled as `none`: in the scenarios we
consider, nobody will load it); once `_value` is present, the stored value
is re-raised when `_asException` is set and returned otherwise. -/
def eval (rv : ReturnValue) : Option (Except PyVal PyVal) :=
  match rv.value with
  | Option.none => none
  | some v => if rv.asException then some (Except.error v) else some (Except.ok v)

end ReturnValue

/-- A job tuple `(function, returnvalue, associated)` as enqueued by
`ThreadPool.put` (line 346) and by `shutDown` (line 319, the sentinel
`(None, None, None)`). -/
abbrev Job : Type := Option Callable × Option ReturnValue × Option PyVal

/-- What becomes of a worker after processing one dequeued job in the
`Worker.run` loop (lines 81-109).  Each constructor carries the job's
future after the step (when the job had one). -/
inductive WorkerAfter where
  | terminated (rv : Option ReturnValue)
  | continues (rv : Option ReturnValue)
  | died (e : PyVal) (rv : Option ReturnValue)
deriving DecidableEq, Repr

namespace Worker

/-- One iteration of the `Worker.run` loop (lines 81-109) applied to a
dequeued job:
a falsy callable is the termination sentinel — the worker loads `None`
into the future (if present) and returns out of the loop; otherwise the
callable is invoked with no arguments, a `StandardError` is captured and
loaded with `asException = 1`, a normal value with `asException = 0`, and
any other exception propagates, killing the thread with the future left
unresolved. -/
def runJob (job : Job) : WorkerAfter :=
  match job.1 with
  | Option.none =>
    match job.2.1 with
    | Option.none => WorkerAfter.terminated none
    | some rv => WorkerAfter.terminated (some (rv.load PyVal.none false))
  | some f =>
    match f () with
    | CallResult.ret v =>
      WorkerAfter.continues (job.2.1.map (fun rv => rv.load v false))
    | CallResult.raiseStd e =>
      WorkerAfter.continues (job.2.1.map (fun rv => rv.load e true))
    | CallResult.raiseFatal e => WorkerAfter.died e job.2.1

end Worker

/-- `VLock` (threadpool.py lines 188-226).  `lockHeld` is the state of the
underlying `threading.Lock`, which is NOT reentrant: a blocking `acquire`
on a held `Lock` blocks even when the holder is the calling thread.
`owner`, `queue` and `ownerlocks` are the bookkeeping fields; threads are
identified by naturals. -/
structure VLock where
  lockHeld : Bool
  owner : Option Nat
  queue : List Nat
  ownerlocks : Int
deriving DecidableEq, Repr

/-- Result of `VLock.acquire`: either the method returns (with the new
state), or the calling thread blocks inside `self.lock.acquire(1)` with
the state as of the block point. -/
inductive AcquireResult where
  | done (s : VLock)
  | blocked (s : VLock)
deriving DecidableEq, Repr

namespace VLock

/-- `VLock.__init__` (lines 192-196). -/
def init : VLock := { lockHeld := false, owner := none, queue := [], ownerlocks := 0 }

/-- `VLock.acquire` (lines 207-213), for calling thread `t`:
the thread is appended to `queue`, then `self.lock.acquire(blocking)` runs.
With `blocking` set, a held underlying lock blocks the caller (even the
current owner: `threading.Lock` is not reentrant).  Without `blocking`,
`lock.acquire(0)` returns immediately — and the source ignores its boolean
result, so the remaining lines (`queue.remove`, `ownerlocks + 1`,
`owner = thread`) run whether or not the lock was actually obtained. -/
def acquire (s : VLock) (t : Nat) (blocking : Bool) : AcquireResult :=
  let s1 : VLock := { s with queue := s.queue ++ [t] }
  if blocking && s1.lockHeld then
    AcquireResult.blocked s1
  else
    AcquireResult.done { s1 with
      lockHeld := true
      queue := s1.queue.erase t
      ownerlocks := s1.ownerlocks + 1
      owner := some t }

/-- `VLock.release` (lines 215-223), for calling thread `t`:
`none` models the `assert threading.currentThread() == self.owner` failing
(an `AssertionError` propagates).  Otherwise `ownerlocks` is decremented;
at zero the owner is cleared and the underlying lock released (returning
1), otherwise 0 is returned. -/
def release (s : VLock) (t : Nat) : Option (VLock × Bool) :=
  if s.owner = some t then
    let n := s.ownerlocks - 1
    if n = 0 then
      some ({ s with ownerlocks := n, owner := none, lockHeld := false }, true)
    else
      some ({ s with ownerlocks := n }, false)
  else
    none

end VLock

/-- A worker thread as tracked in `ThreadPool._pool`: its `_busy` flag and
whether the OS thread is still alive (`isAlive`). -/
structure WorkerRec where
  busy : Bool
  alive : Bool
deriving DecidableEq, Repr

/-- A newly started worker (`Worker.__init__` sets `_busy = 0`; the thread
is alive once started by `_addThread`). -/
def WorkerRec.fresh : WorkerRec := { busy := false, alive := true }

/-- `PoolShutDown`: the `RuntimeError("This pool has been shut down.")`
raised by `checkThreads` (line 333). -/
inductive PoolError where
  | poolShutDown
deriving DecidableEq, Repr

/-- `ThreadPool` state (lines 269-347): the tracked worker list `_pool`,
the inherited `Queue.Queue` contents, the thread-count bounds and the
`_dead` shutdown flag.  The `name`, `_threadCounter` and `_daemon` fields
only affect thread naming and daemon-ness and are not represented. -/
structure PoolState where
  pool : List WorkerRec
  queue : List Job
  minThreads : Nat
  maxThreads : Nat
  dead : Bool

namespace ThreadPool

/-- `ThreadPool._addThread` (lines 303-308): create a fresh worker, append
it to `_pool` and start it. -/
def addThread (pool : List WorkerRec) : List WorkerRec :=
  pool ++ [WorkerRec.fresh]

/-- The count of idle (not busy) workers, `len(self.getIdleThreads())`. -/
def idleCount (pool : List WorkerRec) : Nat :=
  (pool.filter (fun w => !w.busy)).length

/-- The first `while` loop of `checkThreads` (lines 335-336): add workers
until the tracked count reaches `minThreads`. -/
def growToMin (pool : List WorkerRec) (minT : Nat) : List WorkerRec :=
  if pool.length < minT then growToMin (addThread pool) minT else pool
termination_by minT - pool.length
decreasing_by simp [addThread]; omega

/-- The second `while` loop of `checkThreads` (lines 337-341): while there
are fewer idle workers than queued jobs, add workers, stopping at
`maxThreads`. -/
def growForBacklog (pool : List WorkerRec) (qsize maxT : Nat) : List WorkerRec :=
  if idleCount pool < qsize then
    if pool.length < maxT then growForBacklog (addThread pool) qsize maxT else pool
  else pool
termination_by qsize - idleCount pool
decreasing_by
  have h : idleCount (addThread pool) = idleCount pool + 1 := by
    simp [idleCount, addThread, WorkerRec.fresh, List.filter_append]
  omega

/-- The mutating part of `checkThreads` (lines 334-341): prune dead
workers, grow to `minThreads`, then grow for the backlog up to
`maxThreads`. -/
def rescale (s : PoolState) : PoolState :=
  let pruned := s.pool.filter (fun w => w.alive)
  { s with pool := growForBacklog (growToMin pruned s.minThreads) s.queue.length s.maxThreads }

/-- `ThreadPool.checkThreads` (lines 327-341): raises `PoolShutDown` when
the pool is dead — before touching any state — and otherwise rescales. -/
def checkThreads (s : PoolState) : Except PoolError PoolState :=
  if s.dead then Except.error PoolError.poolShutDown else Except.ok (rescale s)

/-- `ThreadPool.__init__` (lines 273-282): empty pool and queue, live,
then an initial `checkThreads` (which cannot fail since `_dead = 0`). -/
def init (minT maxT : Nat) : PoolState :=
  rescale { pool := [], queue := [], minThreads := minT, maxThreads := maxT, dead := false }

/-- `ThreadPool.put` (lines 343-347): run `checkThreads` first (so a dead
pool raises before anything else happens), then construct a fresh
`ReturnValue`, enqueue `(item, rv, associated)` and return the future. -/
def put (s : PoolState) (item : Callable) (associated : Option PyVal) :
    Except PoolError (PoolState × ReturnValue) :=
  match checkThreads s with
  | Except.error e => Except.error e
  | Except.ok s1 =>
    let rv := ReturnValue.fresh
    Except.ok ({ s1 with queue := s1.queue ++ [(some item, some rv, associated)] }, rv)

/-- `ThreadPool.shutDown` (lines 310-319): set `_dead` and enqueue one
`(None, None, None)` sentinel per tracked worker, bypassing
`checkThreads`. -/
def shutDown (s : PoolState) : PoolState :=
  { s with
    dead := true
    queue := s.queue ++ List.replicate s.pool.length ((none, none, none) : Job) }

end ThreadPool

/-- `Async.__call__` (lines 168-169): whatever arguments the wrapper is
called with, it submits `self._func` itself to the pool (with the default
`associated = None`) and returns the resulting future.  `args` and
`kwargs` never reach the pool. -/
def Async.call (func : Callable) (pool : PoolState) (args : List PyVal)
    (kwargs : List (String × PyVal)) : Except PoolError (PoolState × ReturnValue) :=
  ThreadPool.put pool func none

/-- `Locked.__call__` (lines 181-186), for calling thread `t` holding
nothing: acquire the lock (blocking), run `apply(self._func, args, kwargs)`
— whose result is discarded, the body having no `return` statement, so the
call returns Python `None` — and release the lock in a `finally`, so the
release also happens when the callable raises (the exception then
propagates to the caller).  The outer `Option` is `none` when the thread
blocks in `acquire` or the release assertion fails. -/
def Locked.call (func : List PyVal → CallResult) (args : List PyVal)
    (lock : VLock) (t : Nat) : Option (Except PyVal PyVal × VLock) :=
  match VLock.acquire lock t true with
  | AcquireResult.blocked _ => none
  | AcquireResult.done s1 =>
    match func args with
    | CallResult.ret _ =>
      (VLock.release s1 t).map (fun p => (Except.ok PyVal.none, p.1))
    | CallResult.raiseStd e =>
      (VLock.release s1 t).map (fun p => (Except.error e, p.1))
    | CallResult.raiseFatal e =>
      (VLock.release s1 t).map (fun p => (Except.error e, p.1))

/-- The events that change a `ThreadPool`'s state over its life: a
successful `put` (which runs `checkThreads` and enqueues), a worker
dequeueing the front job and going busy, a worker finishing a job and
going idle, a worker thread dying (sentinel exit or fatal exception — it
stays in `_pool` until the next `checkThreads` prunes it), and
`shutDown`. -/
inductive PoolStep : PoolState → PoolState → Prop where
  | put (s s' : PoolState) (f : Callable) (a : Option PyVal) (rv : ReturnValue) :
      ThreadPool.put s f a = Except.ok (s', rv) → PoolStep s s'
  | dequeue (s : PoolState) (j : Job) (rest : List Job) (i : Nat) :
      s.queue = j :: rest →
      PoolStep s { s with
        queue := rest
        pool := s.pool.set i { s.pool.getD i WorkerRec.fresh with busy := true } }
  | finish (s : PoolState) (i : Nat) :
      PoolStep s { s with
        pool := s.pool.set i { s.pool.getD i WorkerRec.fresh with busy := false } }
  | die (s : PoolState) (i : Nat) :
      PoolStep s { s with
        pool := s.pool.set i { s.pool.getD i WorkerRec.fresh with alive := false } }
  | shutdown (s : PoolState) : PoolStep s (ThreadPool.shutDown s)

/-- Reflexive-transitive closure of `PoolStep`: the pool states reachable
from a given state through any sequence of submissions, worker activity
and shutdown. -/
abbrev PoolReachable : PoolState → PoolState → Prop :=
  Relation.ReflTransGen PoolStep


/-! ## Helper lemmas about the rescale loops -/

theorem addThread_length (pool : List WorkerRec) :
    (ThreadPool.addThread pool).length = pool.length + 1 := by
  simp [ThreadPool.addThread]

theorem growToMin_length (pool : List WorkerRec) (minT : Nat) :
    (ThreadPool.growToMin pool minT).length = max pool.length minT := by
  induction pool, minT using ThreadPool.growToMin.induct with
  | case1 pool minT hlt ih =>
    rw [ThreadPool.growToMin, if_pos hlt]
    rw [ih, addThread_length]
    omega
  | case2 pool minT hlt =>
    rw [ThreadPool.growToMin, if_neg hlt]
    omega

theorem growForBacklog_length_le (pool : List WorkerRec) (qsize maxT : Nat) :
    (ThreadPool.growForBacklog pool qsize maxT).length ≤ max pool.length maxT := by
  induction pool, qsize, maxT using ThreadPool.growForBacklog.induct with
  | case1 pool qsize maxT hidle hlen ih =>
    rw [ThreadPool.growForBacklog, if_pos hidle, if_pos hlen]
    have := addThread_length pool
    omega
  | case2 pool qsize maxT hidle hlen =>
    rw [ThreadPool.growForBacklog, if_pos hidle, if_neg hlen]
    omega
  | case3 pool qsize maxT hidle =>
    rw [ThreadPool.growForBacklog, if_neg hidle]
    omega

theorem rescale_length_le (s : PoolState) (hmm : s.minThreads ≤ s.maxThreads)
    (hlen : s.pool.length ≤ s.maxThreads) :
    (ThreadPool.rescale s).pool.length ≤ s.maxThreads := by
  have h1 : (s.pool.filter (fun w => w.alive)).length ≤ s.pool.length :=
    List.length_filter_le _ _
  have h2 := growToMin_length (s.pool.filter (fun w => w.alive)) s.minThreads
  have h3 := growForBacklog_length_le
    (ThreadPool.growToMin (s.pool.filter (fun w => w.alive)) s.minThreads)
    s.queue.length s.maxThreads
  simp only [ThreadPool.rescale]
  omega

theorem put_ok {s s' : PoolState} {f : Callable} {a : Option PyVal} {rv : ReturnValue}
    (h : ThreadPool.put s f a = Except.ok (s', rv)) :
    s.dead = false ∧ s'.pool = (ThreadPool.rescale s).pool ∧
      s'.minThreads = s.minThreads ∧ s'.maxThreads = s.maxThreads := by
  cases hd : s.dead with
  | true => simp [ThreadPool.put, ThreadPool.checkThreads, hd] at h
  | false =>
    simp [ThreadPool.put, ThreadPool.checkThreads, hd] at h
    obtain ⟨hs1, hrv⟩ := h
    subst hs1
    exact ⟨rfl, rfl, rfl, rfl⟩

theorem poolStep_preserves {s s' : PoolState} (hstep : PoolStep s s')
    (hmm : s.minThreads ≤ s.maxThreads) (hlen : s.pool.length ≤ s.maxThreads) :
    s'.minThreads = s.minThreads ∧ s'.maxThreads = s.maxThreads ∧
      s'.pool.length ≤ s'.maxThreads := by
  cases hstep with
  | put s2 f a rv h =>
    obtain ⟨hd, hp, hmin, hmax⟩ := put_ok h
    refine ⟨hmin, hmax, ?_⟩
    rw [hp, hmax]
    exact rescale_length_le s hmm hlen
  | dequeue j rest i hq =>
    exact ⟨rfl, rfl, by simpa [List.length_set] using hlen⟩
  | finish i =>
    exact ⟨rfl, rfl, by simpa [List.length_set] using hlen⟩
  | die i =>
    exact ⟨rfl, rfl, by simpa [List.length_set] using hlen⟩
  | shutdown =>
    exact ⟨rfl, rfl, hlen⟩

theorem init_invariant (n m : Nat) (hnm : n ≤ m) :
    (ThreadPool.init n m).minThreads = n ∧ (ThreadPool.init n m).maxThreads = m ∧
      (ThreadPool.init n m).pool.length ≤ m := by
  refine ⟨rfl, rfl, ?_⟩
  exact rescale_length_le
    { pool := [], queue := [], minThreads := n, maxThreads := m, dead := false }
    hnm (by simp)

/-- Claim C4: for a pool constructed with `minThreads = n ≤ m = maxThreads`,
in every state reachable through submissions (each running the rescale
check), worker activity, worker death and shutdown, the tracked worker list
`_pool` never holds more than `maxThreads` workers, however large the queue
backlog grows. -/
theorem pool_never_exceeds_maxThreads (n m : Nat) (s : PoolState) (hnm : n ≤ m)
    (hreach : PoolReachable (ThreadPool.init n m) s) : s.pool.length ≤ m := by
  have main : s.minThreads = n ∧ s.maxThreads = m ∧ s.pool.length ≤ m := by
    induction hreach with
    | refl => exact init_invariant n m hnm
    | tail hsteps hstep ih =>
      obtain ⟨ihmin, ihmax, ihlen⟩ := ih
      obtain ⟨hmin, hmax, hlen⟩ := poolStep_preserves hstep
        (by omega) (by omega)
      refine ⟨by omega, by omega, by omega⟩
  exact main.2.2

/-- Claim C4 witness: the hypotheses hold at the concrete instance
`n = 2`, `m = 10`, `s = init 2 10`, and the bound follows. -/
theorem pool_never_exceeds_maxThreads_witness :
    2 ≤ 10 ∧ PoolReachable (ThreadPool.init 2 10) (ThreadPool.init 2 10) ∧
      (ThreadPool.init 2 10).pool.length ≤ 10 :=
  ⟨by decide, Relation.ReflTransGen.refl,
    pool_never_exceeds_maxThreads 2 10 (ThreadPool.init 2 10) (by decide)
      Relation.ReflTransGen.refl⟩

theorem growToMin_mem (pool : List WorkerRec) (minT : Nat) :
    ∀ w ∈ ThreadPool.growToMin pool minT, w ∈ pool ∨ w = WorkerRec.fresh := by
  induction pool, minT using ThreadPool.growToMin.induct with
  | case1 pool minT hlt ih =>
    intro w hw
    rw [ThreadPool.growToMin, if_pos hlt] at hw
    rcases ih w hw with h1 | h1
    · simp [ThreadPool.addThread] at h1
      exact h1
    · exact Or.inr h1
  | case2 pool minT hlt =>
    intro w hw
    rw [ThreadPool.growToMin, if_neg hlt] at hw
    exact Or.inl hw

theorem init_pool_eq (n m : Nat) :
    (ThreadPool.init n m).pool = ThreadPool.growToMin [] n := by
  show ThreadPool.growForBacklog (ThreadPool.growToMin (List.filter _ []) n) 0 m
      = ThreadPool.growToMin [] n
  rw [ThreadPool.growForBacklog]
  simp

/-- Claim C8: immediately after constructing a pool with `minThreads = n`
(and `n ≤ maxThreads`), the pool tracks at least `n` live worker threads,
even though the job queue is empty. -/
theorem init_min_threads_floor (n m : Nat) (hnm : n ≤ m) :
    n ≤ ((ThreadPool.init n m).pool.filter (fun w => w.alive)).length := by
  rw [init_pool_eq]
  have hall : ∀ w ∈ ThreadPool.growToMin [] n, w.alive = true := by
    intro w hw
    rcases growToMin_mem [] n w hw with h | h
    · simp at h
    · simp [h, WorkerRec.fresh]
  rw [List.filter_eq_self.mpr hall]
  have := growToMin_length [] n
  simp at this
  omega

/-- Claim C8 witness: at `n = 3`, `m = 5` the hypothesis holds and the pool
starts with at least 3 live workers. -/
theorem init_min_threads_floor_witness :
    3 ≤ 5 ∧ 3 ≤ ((ThreadPool.init 3 5).pool.filter (fun w => w.alive)).length :=
  ⟨by decide, init_min_threads_floor 3 5 (by decide)⟩

/-- Claim C3: once `shutDown` has set the dead flag, every subsequent `put`
raises the pool-shut-down error from `checkThreads` before a future is
created or a job enqueued, so the error result carries no new state and no
`ReturnValue`: the pool is unchanged. -/
theorem put_after_shutdown_rejected (s : PoolState) (item : Callable)
    (a : Option PyVal) (hdead : s.dead = true) :
    ThreadPool.put s item a = Except.error PoolError.poolShutDown := by
  simp [ThreadPool.put, ThreadPool.checkThreads, hdead]

/-- Claim C3 witness: a freshly constructed then shut-down pool rejects a
subsequent submission. -/
theorem put_after_shutdown_rejected_witness :
    (ThreadPool.shutDown (ThreadPool.init 0 2)).dead = true ∧
      ThreadPool.put (ThreadPool.shutDown (ThreadPool.init 0 2))
        (fun _ => CallResult.ret (PyVal.int 1)) none
        = Except.error PoolError.poolShutDown :=
  ⟨rfl, put_after_shutdown_rejected _ _ _ rfl⟩

/-- Claim C1: submitting a pure callable `f` to a live pool enqueues
`(f, rv, a)` with a fresh future `rv` and returns `rv`; the worker that
dequeues the job invokes `f` with no arguments and loads its return value
with the error flag clear; evaluating the future afterwards yields exactly
`f`'s return value. -/
theorem put_eval_result_fidelity (s : PoolState) (f : Callable) (v : PyVal)
    (a : Option PyVal) (hdead : s.dead = false) (hf : f () = CallResult.ret v) :
    ∃ s1 : PoolState,
      ThreadPool.put s f a = Except.ok (s1, ReturnValue.fresh) ∧
      s1.queue.getLast? = some (some f, some ReturnValue.fresh, a) ∧
      Worker.runJob (some f, some ReturnValue.fresh, a)
        = WorkerAfter.continues (some (ReturnValue.load ReturnValue.fresh v false)) ∧
      ReturnValue.eval (ReturnValue.load ReturnValue.fresh v false)
        = some (Except.ok v) := by
  refine ⟨{ ThreadPool.rescale s with
    queue := (ThreadPool.rescale s).queue ++ [(some f, some ReturnValue.fresh, a)] },
    ?_, ?_, ?_, ?_⟩
  · simp [ThreadPool.put, ThreadPool.checkThreads, hdead]
  · simp [List.getLast?_concat]
  · simp [Worker.runJob, hf]
  · simp [ReturnValue.eval, ReturnValue.load, ReturnValue.fresh]

/-- Claim C1 witness: the pure callable returning the integer 7 submitted
to a fresh pool. -/
theorem put_eval_result_fidelity_witness :
    (ThreadPool.init 2 10).dead = false ∧
    ((fun _ => CallResult.ret (PyVal.int 7)) : Callable) () = CallResult.ret (PyVal.int 7) ∧
    ∃ s1 : PoolState,
      ThreadPool.put (ThreadPool.init 2 10) (fun _ => CallResult.ret (PyVal.int 7)) none
        = Except.ok (s1, ReturnValue.fresh) ∧
      s1.queue.getLast? = some (some (fun _ => CallResult.ret (PyVal.int 7)),
        some ReturnValue.fresh, none) ∧
      Worker.runJob (some (fun _ => CallResult.ret (PyVal.int 7)), some ReturnValue.fresh, none)
        = WorkerAfter.continues (some (ReturnValue.load ReturnValue.fresh (PyVal.int 7) false)) ∧
      ReturnValue.eval (ReturnValue.load ReturnValue.fresh (PyVal.int 7) false)
        = some (Except.ok (PyVal.int 7)) :=
  ⟨rfl, rfl, put_eval_result_fidelity (ThreadPool.init 2 10) _ _ none rfl rfl⟩

/-- Claim C2: a callable raising a `StandardError` `e` does not kill the
worker: the error is captured, loaded into the future with the error flag
set, the worker continues its loop (returning to idle), and a later
evaluation of the future re-raises the very same `e`. -/
theorem put_eval_error_roundtrip (s : PoolState) (f : Callable) (e : PyVal)
    (a : Option PyVal) (hdead : s.dead = false)
    (hf : f () = CallResult.raiseStd e) :
    ∃ s1 : PoolState,
      ThreadPool.put s f a = Except.ok (s1, ReturnValue.fresh) ∧
      Worker.runJob (some f, some ReturnValue.fresh, a)
        = WorkerAfter.continues (some (ReturnValue.load ReturnValue.fresh e true)) ∧
      ReturnValue.eval (ReturnValue.load ReturnValue.fresh e true)
        = some (Except.error e) := by
  refine ⟨{ ThreadPool.rescale s with
    queue := (ThreadPool.rescale s).queue ++ [(some f, some ReturnValue.fresh, a)] },
    ?_, ?_, ?_⟩
  · simp [ThreadPool.put, ThreadPool.checkThreads, hdead]
  · simp [Worker.runJob, hf]
  · simp [ReturnValue.eval, ReturnValue.load, ReturnValue.fresh]

/-- Claim C2 witness: a callable raising the string error "boom". -/
theorem put_eval_error_roundtrip_witness :
    (ThreadPool.init 2 10).dead = false ∧
    ((fun _ => CallResult.raiseStd (PyVal.str "boom")) : Callable) ()
      = CallResult.raiseStd (PyVal.str "boom") ∧
    ∃ s1 : PoolState,
      ThreadPool.put (ThreadPool.init 2 10)
          (fun _ => CallResult.raiseStd (PyVal.str "boom")) none
        = Except.ok (s1, ReturnValue.fresh) ∧
      Worker.runJob (some (fun _ => CallResult.raiseStd (PyVal.str "boom")),
          some ReturnValue.fresh, none)
        = WorkerAfter.continues
            (some (ReturnValue.load ReturnValue.fresh (PyVal.str "boom") true)) ∧
      ReturnValue.eval (ReturnValue.load ReturnValue.fresh (PyVal.str "boom") true)
        = some (Except.error (PyVal.str "boom")) :=
  ⟨rfl, rfl, put_eval_error_roundtrip (ThreadPool.init 2 10) _ _ none rfl rfl⟩

/-- Claim C7 counterexample: `load` performs no already-resolved check — a
second `load` on an already-resolved future is not rejected; it returns
normally and overwrites the stored value, as evaluation then shows. -/
theorem load_twice_overwrites_counterexample :
    ReturnValue.load (ReturnValue.load ReturnValue.fresh (PyVal.int 1) false)
        (PyVal.int 2) false
      ≠ ReturnValue.load ReturnValue.fresh (PyVal.int 1) false ∧
    ReturnValue.eval (ReturnValue.load
        (ReturnValue.load ReturnValue.fresh (PyVal.int 1) false) (PyVal.int 2) false)
      = some (Except.ok (PyVal.int 2)) := by
  refine ⟨?_, rfl⟩
  decide

/-- Claim C7 (amended): a second `load` on a resolved future silently
overwrites the stored value and error flag — there is no `AlreadyResolved`
rejection in the code — and after the latest `load` every `eval` call
returns that identical stored value (re-raised when the error flag is set)
without re-executing the job. -/
theorem load_overwrites_eval_stable (rv : ReturnValue) (v1 v2 : PyVal)
    (b1 b2 : Bool) :
    ReturnValue.load (ReturnValue.load rv v1 b1) v2 b2 = ReturnValue.load rv v2 b2 ∧
    ReturnValue.eval (ReturnValue.load rv v2 b2)
      = some (if b2 then Except.error v2 else Except.ok v2) := by
  constructor
  · simp [ReturnValue.load]
  · cases b2 <;> simp [ReturnValue.load, ReturnValue.eval]

/-- Claim C5 (refuting the code): `VLock` is built on a non-reentrant
`threading.Lock`, so when the owning thread calls `acquire` again it does
not succeed immediately — it blocks inside `self.lock.acquire(1)` (a
self-deadlock), still sitting in the wait queue, with the hold count not
incremented. -/
theorem vlock_reentrant_acquire_blocks :
    VLock.acquire
        { lockHeld := true, owner := some 0, queue := [], ownerlocks := 1 } 0 true
      = AcquireResult.blocked
        { lockHeld := true, owner := some 0, queue := [0], ownerlocks := 1 } := by
  decide

/-- Claim C6 (refuting the code): `acquire(blocking=0)` on a lock held by
another thread ignores the failed `lock.acquire(0)` and still runs the
bookkeeping: the hold count is incremented and the owner is overwritten
with the calling thread, corrupting the lock state instead of failing
cleanly. -/
theorem vlock_nonblocking_acquire_corrupts :
    VLock.acquire
        { lockHeld := true, owner := some 0, queue := [], ownerlocks := 1 } 1 false
      = AcquireResult.done
        { lockHeld := true, owner := some 1, queue := [], ownerlocks := 2 } := by
  decide

/-- Claim C9: calling an `Async` wrapper submits exactly the wrapped
callable to the pool — with the default `associated = None` — no matter
what positional or keyword arguments the call supplies; any two argument
lists produce the identical submission.  (The worker will later invoke the
submitted callable with no arguments.) -/
theorem async_call_ignores_arguments (func : Callable) (pool : PoolState)
    (args : List PyVal) (kwargs : List (String × PyVal)) :
    Async.call func pool args kwargs = ThreadPool.put pool func none ∧
    ∀ (args2 : List PyVal) (kwargs2 : List (String × PyVal)),
      Async.call func pool args kwargs = Async.call func pool args2 kwargs2 :=
  ⟨rfl, fun _ _ => rfl⟩

/-- Claim C10: a `Locked` call on a free lock acquires it, runs the wrapped
callable on the given arguments, and releases the lock on every exit path:
the final lock state is fully released (underlying lock free, no owner,
zero hold count) whether the callable returns or raises; on a normal
return the call yields Python `None` — the callable's return value is
discarded — and on a raise the same exception propagates to the caller. -/
theorem locked_call_discards_result_and_releases (func : List PyVal → CallResult)
    (args : List PyVal) (s : VLock) (t : Nat)
    (hfree : s.lockHeld = false) (hcount : s.ownerlocks = 0) :
    Locked.call func args s t = some
      ((match func args with
        | CallResult.ret _ => Except.ok PyVal.none
        | CallResult.raiseStd e => Except.error e
        | CallResult.raiseFatal e => Except.error e),
       { lockHeld := false, owner := none,
         queue := (s.queue ++ [t]).erase t, ownerlocks := 0 }) := by
  have hacq : VLock.acquire s t true = AcquireResult.done
      { lockHeld := true, owner := some t, queue := (s.queue ++ [t]).erase t,
        ownerlocks := s.ownerlocks + 1 } := by
    simp [VLock.acquire, hfree]
  have hrel : VLock.release
      { lockHeld := true, owner := some t, queue := (s.queue ++ [t]).erase t,
        ownerlocks := s.ownerlocks + 1 } t
      = some ({ lockHeld := false, owner := none,
                queue := (s.queue ++ [t]).erase t, ownerlocks := 0 }, true) := by
    simp [VLock.release, hcount]
  cases hres : func args with
  | ret v => simp [Locked.call, hacq, hres, hrel]
  | raiseStd e => simp [Locked.call, hacq, hres, hrel]
  | raiseFatal e => simp [Locked.call, hacq, hres, hrel]

/-- Claim C10 witness: a callable returning the integer 7, run under a
fresh (free) `VLock` by thread 0: the call returns `None` and the lock
ends fully released. -/
theorem locked_call_discards_result_and_releases_witness :
    VLock.init.lockHeld = false ∧ VLock.init.ownerlocks = 0 ∧
    Locked.call (fun _ => CallResult.ret (PyVal.int 7)) [] VLock.init 0 = some
      (Except.ok PyVal.none,
       { lockHeld := false, owner := none, queue := [], ownerlocks := 0 }) :=
  ⟨rfl, rfl,
    locked_call_discards_result_and_releases
      (fun _ => CallResult.ret (PyVal.int 7)) [] VLock.init 0 rfl rfl⟩
